import Mathlib

/-!
Verification of the q-explore web client history store and unit layer.

This file gives a shallow embedding, in Lean, of the JavaScript functions of
the repository that the specification describes:

* static/js/main.js   — unit constants, UNIT_CONVERSIONS, getRadiusInMeters,
                        formatRadius, loadSettings (unit selection part)
* static/js/generate.js (generate + history halves) — saveToHistory,
                        updateHistoryDisplay (storage read), loadHistoryEntry,
                        syncHistoryFromServer
* settings.js (unnamed part) — importHistory

JavaScript numbers are modelled as exact rationals (Rat); the tiny binary
floating point error of the source is far below every tolerance considered
here and none of the concrete values used land on rounding ties.  JavaScript
objects that may lack a property are modelled with Option fields.  The
stable Array.prototype.sort of the source (comparator
new Date(b.timestamp) - new Date(a.timestamp), i.e. timestamp descending,
ties kept in array order) is modelled by a stable insertion sort: a stable
sort is pointwise determined by its comparator, so the two agree.
-/

namespace QExplore

/-! ## Unit system (static/js/main.js) -/

/-- Source: const MILES_PER_METER = 0.000621371 (main.js line 13). -/
def MILES_PER_METER : ℚ := 621371 / 1000000000

/-- Source: const METERS_PER_MILE = 1609.34 (main.js line 14). -/
def METERS_PER_MILE : ℚ := 160934 / 100

/-- One row of the UNIT_CONVERSIONS table of main.js. -/
structure UnitConv where
  fromMeters : ℚ
  toMeters : ℚ
  step : ℚ
  decimals : ℕ
  deriving DecidableEq, Repr

/-- Source: the UNIT_CONVERSIONS object of main.js (lines 351-356).  A lookup
with a key that is not a property of the object yields undefined in
JavaScript, modelled by none. -/
def UNIT_CONVERSIONS : String → Option UnitConv
  | "meters" => some { fromMeters := 1, toMeters := 1, step := 100, decimals := 0 }
  | "miles" => some { fromMeters := MILES_PER_METER, toMeters := METERS_PER_MILE,
                      step := 1/10, decimals := 1 }
  | "feet" => some { fromMeters := 328084/100000, toMeters := 3048/10000,
                     step := 100, decimals := 0 }
  | "kilometers" => some { fromMeters := 1/1000, toMeters := 1000,
                           step := 1/10, decimals := 1 }
  | _ => none

/-- Rounding to d decimal digits, as the source does with
value.toFixed(decimals) for decimals > 0 and Math.round(value) for
decimals = 0 (loadSettings and updateAllUnits in main.js): round half up.
None of the values considered in this file land on a tie, so the half-up
versus half-away difference of the two JavaScript primitives is immaterial. -/
def roundTo (d : ℕ) (x : ℚ) : ℚ :=
  (⌊x * 10 ^ d + 1/2⌋ : ℤ) / (10 ^ d : ℚ)

/-- Canonical (meters) value to display value in a unit, with the display
rounding applied — the conversion performed by loadSettings and
updateAllUnits in main.js: displayValue = meters * conversion.fromMeters,
then toFixed / Math.round. -/
def fromCanonical (c : UnitConv) (meters : ℚ) : ℚ :=
  roundTo c.decimals (meters * c.fromMeters)

/-- Display value back to the canonical unit — the conversion performed by
updateAllUnits in main.js: valueInMeters = currentValue * conversions.toMeters. -/
def toCanonical (c : UnitConv) (v : ℚ) : ℚ :=
  v * c.toMeters

/-- The declared rounding tolerance of a unit, expressed in canonical
meters: half of one display quantum (the display precision is
10 ^ (- decimals) in the display unit). -/
def displayTolerance (c : UnitConv) : ℚ :=
  c.toMeters / (2 * 10 ^ c.decimals)

/-- The unit identifiers that the UNIT_CONVERSIONS table supports. -/
def supportedUnits : List String := ["meters", "miles", "feet", "kilometers"]

/-- The representative canonical values named by the specification. -/
def representativeValues : List ℚ := [0, 1, 3000, 1609340]

/-- Bundled round-trip check: canonical → display (rounded) → canonical is
within the display tolerance of the unit. -/
def roundTripOK (u : String) (v : ℚ) : Bool :=
  match UNIT_CONVERSIONS u with
  | none => false
  | some c =>
      if |toCanonical c (fromCanonical c v) - v| ≤ displayTolerance c then true else false

/-- Source: getRadiusInMeters of main.js (lines 423-429).  The radius input
control is read with parseFloat(...) || 3000, so an unparseable value (none
here) and the falsy value 0 both fall back to 3000.  Every units value other
than the string imperial takes the metric branch. -/
def getRadiusInMeters (units : String) (radiusInputValue : Option ℚ) : ℚ :=
  let displayValue : ℚ :=
    match radiusInputValue with
    | none => 3000
    | some v => if v = 0 then 3000 else v
  if units = "imperial" then displayValue * METERS_PER_MILE else displayValue

/-- Source: formatRadius of main.js (lines 432-438), numeric part.  The
source builds a display string; its locale-dependent digit grouping is not
modelled, only the numeric value that is printed. -/
def formatRadiusValue (units : String) (meters : ℚ) : ℚ :=
  if units = "imperial" then roundTo 1 (meters * MILES_PER_METER)
  else roundTo 0 meters

/-- Source: formatRadius of main.js, unit suffix part. -/
def formatRadiusSuffix (units : String) : String :=
  if units = "imperial" then " mi" else "m"

/-- Source: loadSettings of main.js (line 277): the display unit type chosen
for the radius control — miles when the unit system is the string imperial,
meters for every other value of the unit-system setting. -/
def displayUnitType (units : String) : String :=
  if units = "imperial" then "miles" else "meters"

/-! ## History record data model

The generation response and the stored history record, with exactly the
fields the history code of generate.js reads.  Fields that a JavaScript
object can lack (history entries coming from an unvalidated bulk import)
are Option valued; code paths that construct records always set them. -/

/-- Coordinates of one winner inside the winners mapping.  The winners
mapping is carried through the store untouched; only its coordinate payload
is modelled. -/
structure WinnerCoord where
  lat : ℚ
  lng : ℚ
  deriving DecidableEq, Repr

/-- The request echo stored inside a record: the fields that
loadHistoryEntry and updateHistoryDisplay read (req.lat, req.lng,
req.radius, req.mode).  The radius is in canonical meters.  The mode field
is Option valued: the source reads it as req.mode || standard, so a missing
or falsy mode falls back to the default. -/
structure GenRequest where
  lat : ℚ
  lng : ℚ
  radius : ℚ
  mode : Option String
  deriving DecidableEq, Repr

/-- The metadata object of a generation response (result.metadata). -/
structure Metadata where
  timestamp : ℤ
  deriving DecidableEq, Repr

/-- A generation API response, with the fields saveToHistory and
syncHistoryFromServer read: id, metadata.timestamp, request, winners. -/
structure GenResult where
  id : String
  metadata : Metadata
  request : GenRequest
  winners : List (String × WinnerCoord)
  deriving DecidableEq, Repr

/-- A stored history record.  saveToHistory and syncHistoryFromServer build
records with every field present; importHistory inserts unvalidated foreign
objects, which is why each field other than winners is Option valued. -/
structure HistoryEntry where
  id : Option String
  timestamp : Option ℤ
  request : Option GenRequest
  winners : List (String × WinnerCoord)
  deriving DecidableEq, Repr

/-- One element of data.entries returned by the /api/history endpoint:
syncHistoryFromServer reads entry.response.{id, metadata.timestamp,
request, winners}. -/
structure ServerEntry where
  response : GenResult
  deriving DecidableEq, Repr

/-- The record object literal that saveToHistory and syncHistoryFromServer
push: id, timestamp, request and winners copied from a response. -/
def mkEntry (result : GenResult) : HistoryEntry :=
  { id := some result.id
    timestamp := some result.metadata.timestamp
    request := some result.request
    winners := result.winners }

/-! ## History store operations (generate.js history half, settings.js) -/

/-- Source: saveToHistory of generate.js (lines 143-165).  The record is
unshifted onto the head of the array; if the length then exceeds 100 the
last array element is popped.  The source performs no re-sort, no
deduplication, and returns undefined. -/
def saveToHistory (history : List HistoryEntry) (result : GenResult) : List HistoryEntry :=
  let history := mkEntry result :: history
  if history.length > 100 then history.dropLast else history

/-- The sort key used by the comparator
new Date(b.timestamp) - new Date(a.timestamp).  Timestamps are modelled as
epoch instants (integers).  A missing timestamp gives an Invalid Date and a
NaN comparator in JavaScript, whose order is not meaningful; the model maps
it to 0 and no theorem below depends on the position of such a record. -/
def tsKey (e : HistoryEntry) : ℤ := e.timestamp.getD 0

/-- Stable insertion of a record into a timestamp-descending list: the
record is placed before the first element whose key is not larger, so among
equal keys an element originally earlier in the array stays first — the
stability guarantee of Array.prototype.sort. -/
def insertByTsDesc (x : HistoryEntry) : List HistoryEntry → List HistoryEntry
  | [] => [x]
  | y :: ys => if tsKey x < tsKey y then y :: insertByTsDesc x ys else x :: y :: ys

/-- Source: localHistory.sort((a, b) => new Date(b.timestamp) - new
Date(a.timestamp)) — the stable timestamp-descending sort shared by
syncHistoryFromServer and importHistory, modelled as a stable insertion
sort (see the file comment). -/
def sortByTimestampDesc (l : List HistoryEntry) : List HistoryEntry :=
  l.foldr insertByTsDesc []

/-- Boolean check that a list is in non-increasing timestamp order — the
ordering invariant the specification states for list(). -/
def isSortedByTsDesc : List HistoryEntry → Bool
  | [] => true
  | [_] => true
  | x :: y :: rest => (tsKey y ≤ tsKey x) && isSortedByTsDesc (y :: rest)

/-- The ids held by a store, in order (e.id for each element). -/
def storeIds (l : List HistoryEntry) : List (Option String) :=
  l.map (·.id)

/-- Source: syncHistoryFromServer of generate.js (lines 294-330), the merge
logic after the fetch succeeded.  The set of local ids is computed once;
each server entry whose response id is not in that set is appended (in
order); the combined array is sorted timestamp-descending and, only when
longer than 100, truncated to its first 100 elements
(localHistory.length = 100). -/
def syncHistoryFromServer (localHistory : List HistoryEntry)
    (entries : List ServerEntry) : List HistoryEntry :=
  let localIds := storeIds localHistory
  let merged := localHistory ++
    (entries.filter (fun e => !(localIds.contains (some e.response.id)))).map
      (fun e => mkEntry e.response)
  let sorted := sortByTimestampDesc merged
  if sorted.length > 100 then sorted.take 100 else sorted

/-- The bulk-import payload after the file has been read: either the text
is not valid JSON (JSON.parse throws), or it parses to a non-array value,
or it parses to an array of objects. -/
inductive ImportPayload
  | notJson
  | jsonNonArray
  | jsonArray (imported : List HistoryEntry)

/-- Stand-in for the engine-specific message of the SyntaxError that
JSON.parse throws on unreadable input. -/
def parseFailureMessage : String := "Unexpected token"

/-- Source: importHistory of settings.js (lines 326-371), the onchange
handler after the file text is available.  Returns the resulting persisted
store together with the alert message shown.  On a parse or shape failure
the catch branch alerts and the store is never written.  On an array
payload: an entry is appended exactly when entry.id is truthy (some here;
the falsy empty string is folded into none) and not among the ids computed
from the pre-import store — the id set is not updated while appending, and
timestamp and request are never checked.  The combined array is sorted
timestamp-descending, truncated to 100 when longer, and the alert reports
the length of the whole imported array. -/
def importHistory (existing : List HistoryEntry) :
    ImportPayload → List HistoryEntry × String
  | .notJson => (existing, "Import failed: " ++ parseFailureMessage)
  | .jsonNonArray => (existing, "Import failed: Invalid format: expected array")
  | .jsonArray imported =>
      let existingIds := storeIds existing
      let merged := existing ++
        imported.filter (fun e => e.id.isSome && !(existingIds.contains e.id))
      let sorted := sortByTimestampDesc merged
      let capped := if sorted.length > 100 then sorted.take 100 else sorted
      (capped, "Imported " ++ toString imported.length ++ " entries")

/-- The serialized blob held in the q-explore-history localStorage slot:
absent (getItem returns null), present and decodable to a record array, or
present but unreadable. -/
inductive StoredBlob
  | absent
  | readable (entries : List HistoryEntry)
  | unreadable

/-- Source: the expression JSON.parse(localStorage.getItem(
q-explore-history) || (empty array literal)) shared by
updateHistoryDisplay, loadHistoryEntry, deleteHistoryEntry,
syncHistoryFromServer, exportHistory and importHistory.  The || fallback
covers only an absent (null or empty) item; when the slot holds an
unreadable blob JSON.parse throws a SyntaxError, modelled by the error
case. -/
def readHistoryFromStorage : StoredBlob → Except String (List HistoryEntry)
  | .absent => .ok []
  | .readable entries => .ok entries
  | .unreadable => .error parseFailureMessage

/-! ## Replay engine (loadHistoryEntry of generate.js) -/

/-- The UI and map state that loadHistoryEntry writes when it replays a
record: setMapCenter(req.lat, req.lng) and map.setView([req.lat, req.lng],
13); elements.radiusInput.value = req.radius (the raw stored value, no
conversion); elements.modeSelect.value = req.mode || standard; and the
response object rebuilt from the entry with circles set to the empty
array. -/
structure ReplayOutcome where
  mapCenterLat : ℚ
  mapCenterLng : ℚ
  mapZoom : ℕ
  radiusInputValue : ℚ
  modeSelectValue : String
  responseId : Option String
  responseRequest : GenRequest
  responseWinners : List (String × WinnerCoord)
  responseCirclesEmpty : Bool
  responseTimestamp : Option ℤ
  deriving DecidableEq, Repr

/-- Outcome of a replay request: a silent no-op when the index does not
name an entry (the source returns early), a thrown TypeError when the
entry has no request object (the source dereferences req.lat), or the
applied state. -/
inductive ReplayResult
  | noop
  | jsError
  | applied (o : ReplayOutcome)
  deriving DecidableEq, Repr

/-- Source: loadHistoryEntry of generate.js (lines 235-273). -/
def loadHistoryEntry (history : List HistoryEntry) (index : ℕ) : ReplayResult :=
  match history[index]? with
  | none => .noop
  | some entry =>
      match entry.request with
      | none => .jsError
      | some req =>
          .applied
            { mapCenterLat := req.lat
              mapCenterLng := req.lng
              mapZoom := 13
              radiusInputValue := req.radius
              modeSelectValue := req.mode.getD "standard"
              responseId := entry.id
              responseRequest := req
              responseWinners := entry.winners
              responseCirclesEmpty := true
              responseTimestamp := entry.timestamp }

/-! ## Mutation sequences over the persisted store

The three insertion operations, as one step relation, to state the
store-wide invariants (uniqueness, capacity) over arbitrary operation
sequences starting from the empty store. -/

/-- One mutating insertion operation on the persisted history store. -/
inductive HOp
  | add (result : GenResult)
  | sync (entries : List ServerEntry)
  | imprt (payload : ImportPayload)

/-- Apply one operation to the current store contents. -/
def applyOp (s : List HistoryEntry) : HOp → List HistoryEntry
  | .add result => saveToHistory s result
  | .sync entries => syncHistoryFromServer s entries
  | .imprt payload => (importHistory s payload).1

/-- Apply an operation sequence to the empty store. -/
def applyOps (ops : List HOp) : List HistoryEntry :=
  ops.foldl applyOp []

/-- Side conditions on a sequence of add and sync operations under which
the store keeps its ids unique: every added record has an id not currently
stored, every server batch has internally distinct ids, and bulk imports
do not occur.  The source recomputes its id set only at the start of each
merge, so these are exactly the conditions insertion can rely on. -/
def OkSeq : List HistoryEntry → List HOp → Prop
  | _, [] => True
  | s, op :: rest =>
      (match op with
       | .add result => some result.id ∉ storeIds s
       | .sync entries => (entries.map (fun e => e.response.id)).Nodup
       | .imprt _ => False) ∧ OkSeq (applyOp s op) rest

/-! ## Concrete inputs used by the claim theorems -/

/-- A demonstration request: 3000 canonical meters around a fixed point. -/
def replayDemoRequest : GenRequest :=
  { lat := 40, lng := -74, radius := 3000, mode := some "standard" }

/-- A well-formed stored record holding the demonstration request. -/
def replayDemoEntry : HistoryEntry :=
  { id := some "gen-1", timestamp := some 1700000000,
    request := some replayDemoRequest, winners := [] }

/-- The miles row of UNIT_CONVERSIONS. -/
def milesConv : UnitConv :=
  { fromMeters := MILES_PER_METER, toMeters := METERS_PER_MILE,
    step := 1/10, decimals := 1 }

/-- A generation result with id A and timestamp 20. -/
def resultA : GenResult :=
  { id := "A", metadata := { timestamp := 20 }, request := replayDemoRequest,
    winners := [] }

/-- A generation result with id B and the older timestamp 10. -/
def resultB : GenResult :=
  { id := "B", metadata := { timestamp := 10 }, request := replayDemoRequest,
    winners := [] }

/-- A generation result with a low timestamp and a distinct id r followed
by its index. -/
def lowResult (i : ℕ) : GenResult :=
  { id := "r" ++ toString i, metadata := { timestamp := (i : ℤ) },
    request := replayDemoRequest, winners := [] }

/-- A generation result far newer than every lowResult. -/
def highResult : GenResult :=
  { id := "new", metadata := { timestamp := 1000 },
    request := replayDemoRequest, winners := [] }

/-- 101 adds: the newest record first, then 100 older ones. -/
def capOps : List HOp :=
  HOp.add highResult :: (List.range 100).map (fun i => HOp.add (lowResult i))

/-- 99 records sharing timestamp 20, with distinct ids s followed by the
index. -/
def midResult (i : ℕ) : GenResult :=
  { id := "s" ++ toString i, metadata := { timestamp := 20 },
    request := replayDemoRequest, winners := [] }

/-- A stale localonly record: id stale, timestamp 5. -/
def staleEntry : HistoryEntry :=
  { id := some "stale", timestamp := some 5, request := none, winners := [] }

/-- A full local store: 99 records at timestamp 20 plus the stale record. -/
def cexLocal : List HistoryEntry :=
  ((List.range 99).map (fun i => mkEntry (midResult i))) ++ [staleEntry]

/-- The server copy of the stale record, newer (timestamp 30). -/
def serverStale : ServerEntry :=
  { response :=
      { id := "stale", metadata := { timestamp := 30 },
        request := replayDemoRequest, winners := [] } }

/-- A fresh server record at timestamp 20. -/
def serverM : ServerEntry :=
  { response :=
      { id := "M", metadata := { timestamp := 20 },
        request := replayDemoRequest, winners := [] } }

/-- The remote set for the C5 counterexample. -/
def cexRemote : List ServerEntry := [serverStale, serverM]

/-- A one-record remote set for the C5 witness. -/
def cexRemoteSmall : List ServerEntry := [serverM]

/-- An imported record with an id but no timestamp and no request. -/
def malformedNoTs : HistoryEntry :=
  { id := some "x", timestamp := none, request := none, winners := [] }

/-- An imported record missing its id (or carrying a falsy one). -/
def malformedNoId : HistoryEntry :=
  { id := none, timestamp := some 99, request := none, winners := [] }

/-- The i-th valid imported record: id v followed by the index, timestamps
descending so the batch is already in store order. -/
def validImport (i : ℕ) : HistoryEntry :=
  { id := some ("v" ++ toString i), timestamp := some (9 - (i : ℤ)),
    request := some replayDemoRequest, winners := [] }

/-- A batch of one id-less malformed record and nine valid ones. -/
def importBatch10 : List HistoryEntry :=
  malformedNoId :: (List.range 9).map validImport

/-! ## Lemmas about the stable timestamp sort -/

/-- Head-key bound: the first element of the list, if any, has sort key at
most k. -/
def headKeyLE (k : ℤ) : List HistoryEntry → Bool
  | [] => true
  | y :: _ => decide (tsKey y ≤ k)

theorem isSortedByTsDesc_cons (x : HistoryEntry) (l : List HistoryEntry) :
    isSortedByTsDesc (x :: l) = (headKeyLE (tsKey x) l && isSortedByTsDesc l) := by
  cases l with
  | nil => rfl
  | cons y ys => rfl

theorem headKeyLE_insertByTsDesc {k : ℤ} {x : HistoryEntry} {l : List HistoryEntry}
    (hx : tsKey x ≤ k) (hl : headKeyLE k l = true) :
    headKeyLE k (insertByTsDesc x l) = true := by
  cases l with
  | nil => simpa [insertByTsDesc, headKeyLE]
  | cons y ys =>
    by_cases hxy : tsKey x < tsKey y
    · simpa [insertByTsDesc, hxy, headKeyLE] using hl
    · simpa [insertByTsDesc, hxy, headKeyLE]

theorem insertByTsDesc_sorted {x : HistoryEntry} {l : List HistoryEntry}
    (h : isSortedByTsDesc l = true) :
    isSortedByTsDesc (insertByTsDesc x l) = true := by
  induction l with
  | nil => rfl
  | cons y ys ih =>
    rw [isSortedByTsDesc_cons, Bool.and_eq_true] at h
    by_cases hxy : tsKey x < tsKey y
    · have hins := ih h.2
      rw [insertByTsDesc, if_pos hxy, isSortedByTsDesc_cons, Bool.and_eq_true]
      exact ⟨headKeyLE_insertByTsDesc hxy.le h.1, hins⟩
    · rw [insertByTsDesc, if_neg hxy, isSortedByTsDesc_cons, Bool.and_eq_true,
        isSortedByTsDesc_cons, Bool.and_eq_true]
      refine ⟨?_, h.1, h.2⟩
      simp [headKeyLE, Int.not_lt.mp hxy]

theorem sortByTimestampDesc_cons (x : HistoryEntry) (l : List HistoryEntry) :
    sortByTimestampDesc (x :: l) = insertByTsDesc x (sortByTimestampDesc l) := rfl

theorem sortByTimestampDesc_sorted (l : List HistoryEntry) :
    isSortedByTsDesc (sortByTimestampDesc l) = true := by
  induction l with
  | nil => rfl
  | cons x xs ih => rw [sortByTimestampDesc_cons]; exact insertByTsDesc_sorted ih

theorem insertByTsDesc_perm (x : HistoryEntry) (l : List HistoryEntry) :
    List.Perm (insertByTsDesc x l) (x :: l) := by
  induction l with
  | nil => exact List.Perm.refl _
  | cons y ys ih =>
    by_cases hxy : tsKey x < tsKey y
    · rw [insertByTsDesc, if_pos hxy]
      exact (ih.cons y).trans (List.Perm.swap x y ys)
    · rw [insertByTsDesc, if_neg hxy]

theorem sortByTimestampDesc_perm (l : List HistoryEntry) :
    List.Perm (sortByTimestampDesc l) l := by
  induction l with
  | nil => exact List.Perm.refl _
  | cons x xs ih =>
    rw [sortByTimestampDesc_cons]
    exact (insertByTsDesc_perm x _).trans (ih.cons x)

theorem sortByTimestampDesc_eq_self {l : List HistoryEntry}
    (h : isSortedByTsDesc l = true) : sortByTimestampDesc l = l := by
  induction l with
  | nil => rfl
  | cons x xs ih =>
    rw [isSortedByTsDesc_cons, Bool.and_eq_true] at h
    rw [sortByTimestampDesc_cons, ih h.2]
    cases xs with
    | nil => rfl
    | cons y ys =>
      have hyx : tsKey y ≤ tsKey x := by
        have := h.1
        simpa [headKeyLE] using this
      rw [insertByTsDesc, if_neg (Int.not_lt.mpr hyx)]

theorem headKeyLE_take {k : ℤ} {l : List HistoryEntry} (n : ℕ)
    (h : headKeyLE k l = true) : headKeyLE k (l.take n) = true := by
  cases l with
  | nil => simp [headKeyLE]
  | cons y ys =>
    cases n with
    | zero => rfl
    | succ m => simpa [headKeyLE] using h

theorem isSortedByTsDesc_take {l : List HistoryEntry}
    (h : isSortedByTsDesc l = true) (n : ℕ) :
    isSortedByTsDesc (l.take n) = true := by
  induction l generalizing n with
  | nil => simp [isSortedByTsDesc]
  | cons x xs ih =>
    cases n with
    | zero => rfl
    | succ m =>
      rw [isSortedByTsDesc_cons, Bool.and_eq_true] at h
      rw [List.take_succ_cons, isSortedByTsDesc_cons, Bool.and_eq_true]
      exact ⟨headKeyLE_take m h.1, ih h.2 m⟩

theorem isSortedByTsDesc_dropLast {l : List HistoryEntry}
    (h : isSortedByTsDesc l = true) : isSortedByTsDesc l.dropLast = true := by
  rw [List.dropLast_eq_take]
  exact isSortedByTsDesc_take h _

/-! ## Lemmas about the store operations -/

theorem saveToHistory_length {h : List HistoryEntry} (r : GenResult)
    (hlen : h.length ≤ 100) : (saveToHistory h r).length ≤ 100 := by
  simp only [saveToHistory]
  split
  · next hc => simp only [List.length_dropLast, List.length_cons]; omega
  · next hc => simp only [List.length_cons] at hc ⊢; omega

theorem syncHistoryFromServer_length (s : List HistoryEntry) (es : List ServerEntry) :
    (syncHistoryFromServer s es).length ≤ 100 := by
  simp only [syncHistoryFromServer]
  split
  · next hc => simp [List.length_take]
  · next hc => omega

theorem syncHistoryFromServer_sorted (s : List HistoryEntry) (es : List ServerEntry) :
    isSortedByTsDesc (syncHistoryFromServer s es) = true := by
  simp only [syncHistoryFromServer]
  split
  · next hc => exact isSortedByTsDesc_take (sortByTimestampDesc_sorted _) 100
  · next hc => exact sortByTimestampDesc_sorted _

theorem importHistory_length {s : List HistoryEntry} (p : ImportPayload)
    (hlen : s.length ≤ 100) : (importHistory s p).1.length ≤ 100 := by
  cases p with
  | notJson => exact hlen
  | jsonNonArray => exact hlen
  | jsonArray imported =>
    simp only [importHistory]
    split
    · next hc => simp [List.length_take]
    · next hc => omega

theorem storeIds_nodup_of_sublist {l₁ l₂ : List HistoryEntry}
    (hsub : l₁.Sublist l₂) (h : (storeIds l₂).Nodup) : (storeIds l₁).Nodup := by
  unfold storeIds at h ⊢
  exact List.Nodup.sublist (List.Sublist.map _ hsub) h

theorem storeIds_nodup_of_perm {l₁ l₂ : List HistoryEntry}
    (hp : List.Perm l₁ l₂) (h : (storeIds l₁).Nodup) : (storeIds l₂).Nodup := by
  unfold storeIds at h ⊢
  exact List.Perm.nodup (List.Perm.map _ hp) h

theorem saveToHistory_nodup {s : List HistoryEntry} {r : GenResult}
    (hs : (storeIds s).Nodup) (hfresh : some r.id ∉ storeIds s) :
    (storeIds (saveToHistory s r)).Nodup := by
  have hcons : (storeIds (mkEntry r :: s)).Nodup := by
    rw [storeIds, List.map_cons, List.nodup_cons]
    exact ⟨by simpa [mkEntry, storeIds] using hfresh, hs⟩
  simp only [saveToHistory]
  split
  · exact storeIds_nodup_of_sublist (List.dropLast_sublist _) hcons
  · exact hcons

theorem syncHistoryFromServer_nodup {s : List HistoryEntry} {es : List ServerEntry}
    (hs : (storeIds s).Nodup) (hes : (es.map (fun e => e.response.id)).Nodup) :
    (storeIds (syncHistoryFromServer s es)).Nodup := by
  have hmerged : (storeIds (s ++ (es.filter
      (fun e => !((storeIds s).contains (some e.response.id)))).map
      (fun e => mkEntry e.response))).Nodup := by
    rw [storeIds, List.map_append]
    have hids : ((es.filter
          (fun e => !((storeIds s).contains (some e.response.id)))).map
          (fun e => mkEntry e.response)).map (·.id)
        = ((es.filter (fun e => !((storeIds s).contains (some e.response.id)))).map
          (fun e => e.response.id)).map some := by
      simp [List.map_map, mkEntry, Function.comp]
    have hnew : (((es.filter
        (fun e => !((storeIds s).contains (some e.response.id)))).map
        (fun e => mkEntry e.response)).map (·.id)).Nodup := by
      rw [hids]
      refine List.Nodup.map (Option.some_injective _) ?_
      exact List.Nodup.sublist (List.Sublist.map _ (List.filter_sublist es)) hes
    refine List.Nodup.append hs hnew ?_
    intro a ha hmem
    rw [hids] at hmem
    simp only [List.mem_map, List.mem_filter] at hmem
    obtain ⟨b, ⟨e, ⟨he, hp⟩, rfl⟩, rfl⟩ := hmem
    have hp2 : ¬ some e.response.id ∈ storeIds s := by
      intro hmem2
      have hcne := List.elem_iff.mpr hmem2
      have hfls : (!((storeIds s).contains (some e.response.id))) = false := by
        show (!(List.elem (some e.response.id) (storeIds s))) = false
        rw [hcne]
        rfl
      rw [hfls] at hp
      exact Bool.noConfusion hp
    exact hp2 ha
  simp only [syncHistoryFromServer]
  have hsortnd := storeIds_nodup_of_perm
    (List.Perm.symm (sortByTimestampDesc_perm _)) hmerged
  split
  · exact storeIds_nodup_of_sublist (List.take_sublist _ _) hsortnd
  · exact hsortnd

/-! ## Claim theorems -/

/-- C9: for every supported unit and each of the representative canonical
values 0, 1, 3000 and 1609340, converting canonical → display (with the
display rounding applied) → canonical reproduces the value to within half a
display quantum of that unit expressed in meters — the declared rounding
tolerance; in particular the miles factors 0.000621371 and 1609.34, though
not exact reciprocals, stay within tolerance at all four values. -/
theorem claim_C9_roundtrip :
    ∀ u ∈ supportedUnits, ∀ v ∈ representativeValues,
      ∀ c ∈ UNIT_CONVERSIONS u,
        |toCanonical c (fromCanonical c v) - v| ≤ displayTolerance c := by
  intro u hu v hv c hc
  fin_cases hu <;>
    simp only [UNIT_CONVERSIONS, Option.mem_def, Option.some.injEq] at hc <;>
    subst hc <;>
    fin_cases hv <;>
    norm_num [toCanonical, fromCanonical, roundTo, displayTolerance,
      MILES_PER_METER, METERS_PER_MILE, abs_le]

/-- Witness for C9: the miles unit at canonical value 3000. -/
theorem claim_C9_roundtrip_witness :
    ("miles" ∈ supportedUnits ∧ (3000 : ℚ) ∈ representativeValues ∧
      milesConv ∈ UNIT_CONVERSIONS "miles") ∧
    |toCanonical milesConv (fromCanonical milesConv 3000) - 3000|
      ≤ displayTolerance milesConv :=
  ⟨⟨by decide, by decide, rfl⟩,
    claim_C9_roundtrip "miles" (by decide) 3000 (by decide) milesConv rfl⟩

/-- C8 counterexample: the unit identifier furlongs is outside the
supported set, yet no conversion fails — getRadiusInMeters returns the
value unchanged (the metric interpretation), the radius formatting and the
unit-type selection equal the metric ones, even though UNIT_CONVERSIONS
has no entry for it.  Conversion silently defaults instead of failing with
an UnknownUnit error. -/
theorem claim_C8_counterexample :
    getRadiusInMeters "furlongs" (some 5) = 5 ∧
    formatRadiusValue "furlongs" 3000 = formatRadiusValue "metric" 3000 ∧
    formatRadiusSuffix "furlongs" = "m" ∧
    displayUnitType "furlongs" = "meters" ∧
    UNIT_CONVERSIONS "furlongs" = none :=
  ⟨by decide, rfl, rfl, rfl, rfl⟩

/-- C8 amended: every unit-system value other than the string imperial is
silently treated as metric by each conversion operation; no UnknownUnit
error exists in the code. -/
theorem claim_C8_amended (u : String) (hu : u ≠ "imperial") :
    (∀ v, getRadiusInMeters u v = getRadiusInMeters "metric" v) ∧
    (∀ m, formatRadiusValue u m = formatRadiusValue "metric" m) ∧
    formatRadiusSuffix u = "m" ∧ displayUnitType u = "meters" := by
  refine ⟨fun v => ?_, fun m => ?_, ?_, ?_⟩ <;>
    simp [getRadiusInMeters, formatRadiusValue, formatRadiusSuffix,
      displayUnitType, hu]

/-- Witness for C8 amended: the unrecognized unit system furlongs. -/
theorem claim_C8_amended_witness :
    ("furlongs" : String) ≠ "imperial" ∧
    ((∀ v, getRadiusInMeters "furlongs" v = getRadiusInMeters "metric" v) ∧
      (∀ m, formatRadiusValue "furlongs" m = formatRadiusValue "metric" m) ∧
      formatRadiusSuffix "furlongs" = "m" ∧ displayUnitType "furlongs" = "meters") :=
  ⟨by decide, claim_C8_amended "furlongs" (by decide)⟩

/-- C10: bulk import is atomic on container-level failure — when the
payload is not valid JSON, or parses to a non-array value, the resulting
persisted store is exactly the pre-import store. -/
theorem claim_C10_import_atomic (existing : List HistoryEntry) :
    (importHistory existing ImportPayload.notJson).1 = existing ∧
    (importHistory existing ImportPayload.jsonNonArray).1 = existing :=
  ⟨rfl, rfl⟩

/-- Witness for C10: a one-record store is left unchanged by both container
failures. -/
theorem claim_C10_import_atomic_witness :
    (importHistory [replayDemoEntry] ImportPayload.notJson).1 = [replayDemoEntry] ∧
    (importHistory [replayDemoEntry] ImportPayload.jsonNonArray).1 = [replayDemoEntry] :=
  claim_C10_import_atomic [replayDemoEntry]

/-- C7 counterexample: a present but unreadable history blob does not
degrade to the empty store — the parse raises an error that propagates. -/
theorem claim_C7_counterexample :
    readHistoryFromStorage StoredBlob.unreadable ≠ Except.ok ([] : List HistoryEntry) :=
  fun h => Except.noConfusion h

/-- C7 amended: only an absent history slot degrades to the empty store (the
|| fallback covers exactly the null case); a readable blob loads as stored,
and a present but unreadable blob raises the parse error to the caller
instead of degrading. -/
theorem claim_C7_amended :
    readHistoryFromStorage StoredBlob.absent = Except.ok ([] : List HistoryEntry) ∧
    (∀ entries, readHistoryFromStorage (StoredBlob.readable entries) = Except.ok entries) ∧
    readHistoryFromStorage StoredBlob.unreadable = Except.error parseFailureMessage :=
  ⟨rfl, fun _ => rfl, rfl⟩

/-- C1: replay at a stored record reproduces the stored location and
canonical radius exactly in the rebuilt request, but the value placed in
the radius display control is the raw canonical radius (3000), not
fromCanonical of it in the active display unit: with the imperial system
active the control should read 1.9 (miles), and feeding the replayed
control value back through getRadiusInMeters yields 4828020 meters instead
of the stored 3000 — the code writes the unconverted value. -/
theorem claim_C1_replay_radius :
    ∃ o, loadHistoryEntry [replayDemoEntry] 0 = ReplayResult.applied o ∧
      o.mapCenterLat = replayDemoRequest.lat ∧
      o.mapCenterLng = replayDemoRequest.lng ∧
      o.responseRequest = replayDemoRequest ∧
      o.radiusInputValue = replayDemoRequest.radius ∧
      UNIT_CONVERSIONS (displayUnitType "imperial") = some milesConv ∧
      fromCanonical milesConv replayDemoRequest.radius = 19/10 ∧
      o.radiusInputValue ≠ fromCanonical milesConv replayDemoRequest.radius ∧
      getRadiusInMeters "imperial" (some o.radiusInputValue) = 4828020 := by
  refine ⟨_, rfl, rfl, rfl, rfl, rfl, rfl, ?_, ?_, ?_⟩
  · norm_num [fromCanonical, roundTo, milesConv, MILES_PER_METER, replayDemoRequest]
  · norm_num [fromCanonical, roundTo, milesConv, MILES_PER_METER, replayDemoRequest,
      replayDemoEntry, loadHistoryEntry]
  · norm_num [getRadiusInMeters, METERS_PER_MILE, replayDemoRequest,
      replayDemoEntry, loadHistoryEntry]

/-- C2 counterexample: adding a record whose timestamp (10) is older than
the stored head (20) leaves the store in increasing, not non-increasing,
timestamp order — add does not re-sort, it only prepends. -/
theorem claim_C2_counterexample :
    (saveToHistory (saveToHistory [] resultA) resultB).map tsKey = [10, 20] ∧
    isSortedByTsDesc (saveToHistory (saveToHistory [] resultA) resultB) = false :=
  ⟨rfl, rfl⟩

/-- C2 amended: add prepends the record and truncates to the 100-record
bound by dropping the last element (it returns undefined, not the store
size, and performs no re-sort); the post-add store stays in non-increasing
timestamp order exactly under the extra assumption that the added record is
at least as recent as the stored head. -/
theorem claim_C2_amended (h : List HistoryEntry) (r : GenResult)
    (hlen : h.length ≤ 100)
    (hsorted : isSortedByTsDesc h = true)
    (hnew : headKeyLE r.metadata.timestamp h = true) :
    (saveToHistory h r).length ≤ 100 ∧
    isSortedByTsDesc (saveToHistory h r) = true := by
  refine ⟨saveToHistory_length r hlen, ?_⟩
  have hcons : isSortedByTsDesc (mkEntry r :: h) = true := by
    rw [isSortedByTsDesc_cons, Bool.and_eq_true]
    exact ⟨by simpa [tsKey, mkEntry] using hnew, hsorted⟩
  simp only [saveToHistory]
  split
  · exact isSortedByTsDesc_dropLast hcons
  · exact hcons

/-- Witness for C2 amended: adding record A to the empty store. -/
theorem claim_C2_amended_witness :
    (([] : List HistoryEntry).length ≤ 100 ∧ isSortedByTsDesc [] = true ∧
      headKeyLE resultA.metadata.timestamp [] = true) ∧
    ((saveToHistory [] resultA).length ≤ 100 ∧
      isSortedByTsDesc (saveToHistory [] resultA) = true) :=
  ⟨⟨by decide, rfl, rfl⟩, claim_C2_amended [] resultA (by decide) rfl rfl⟩

/-! ## Uniqueness and capacity over operation sequences (C3, C4) -/

theorem okSeq_nodup_aux (ops : List HOp) :
    ∀ s : List HistoryEntry, (storeIds s).Nodup → OkSeq s ops →
      (storeIds (ops.foldl applyOp s)).Nodup := by
  induction ops with
  | nil => intro s hs _; simpa using hs
  | cons op rest ih =>
    intro s hs hok
    obtain ⟨hop, hrest⟩ := hok
    rw [List.foldl_cons]
    refine ih _ ?_ hrest
    cases op with
    | add r => exact saveToHistory_nodup hs hop
    | sync es => exact syncHistoryFromServer_nodup hs hop
    | imprt p => exact hop.elim

theorem applyOp_length {s : List HistoryEntry} (op : HOp)
    (hlen : s.length ≤ 100) : (applyOp s op).length ≤ 100 := by
  cases op with
  | add r => exact saveToHistory_length r hlen
  | sync es => exact syncHistoryFromServer_length s es
  | imprt p => exact importHistory_length p hlen

theorem foldl_applyOp_length (ops : List HOp) :
    ∀ s : List HistoryEntry, s.length ≤ 100 → (ops.foldl applyOp s).length ≤ 100 := by
  induction ops with
  | nil => intro s hs; simpa using hs
  | cons op rest ih =>
    intro s hs
    rw [List.foldl_cons]
    exact ih _ (applyOp_length op hs)

set_option maxRecDepth 40000 in
/-- C3 counterexample: adding the same result twice from the empty store
leaves two records with the identical id A — add never deduplicates. -/
theorem claim_C3_counterexample :
    storeIds (applyOps [HOp.add resultA, HOp.add resultA]) = [some "A", some "A"] ∧
    ¬ (storeIds (applyOps [HOp.add resultA, HOp.add resultA])).Nodup :=
  ⟨rfl, by decide⟩

/-- C3 amended: after any sequence of add and merge operations from the
empty store, ids stay pairwise distinct provided each added record carries
an id not currently stored and each server batch is internally free of
duplicate ids (the merge computes its local-id set once, so it cannot
protect against either). -/
theorem claim_C3_amended (ops : List HOp) (h : OkSeq [] ops) :
    (storeIds (applyOps ops)).Nodup :=
  okSeq_nodup_aux ops [] (by simp [storeIds]) h

/-- Witness for C3 amended: add A then add B, both fresh. -/
theorem claim_C3_amended_witness :
    OkSeq [] [HOp.add resultA, HOp.add resultB] ∧
    (storeIds (applyOps [HOp.add resultA, HOp.add resultB])).Nodup :=
  ⟨⟨by decide, by decide, trivial⟩,
    claim_C3_amended [HOp.add resultA, HOp.add resultB] ⟨by decide, by decide, trivial⟩⟩

set_option maxRecDepth 40000 in
/-- C4 counterexample: after 101 unique records are offered through add,
the store holds 100 records but the evicted one is the single most recent
record (timestamp 1000) while the oldest offered record (timestamp 0) is
retained — eviction by add follows insertion position, not the
timestamp-descending ordering rule. -/
theorem claim_C4_counterexample :
    (applyOps capOps).length = 100 ∧
    some "new" ∉ storeIds (applyOps capOps) ∧
    some "r0" ∈ storeIds (applyOps capOps) ∧
    tsKey (mkEntry highResult) = 1000 ∧
    (∀ e ∈ applyOps capOps, tsKey e < 1000) :=
  ⟨rfl, by decide, by decide, rfl, by decide⟩

/-- C4 amended: after any sequence of add, server-merge and bulk-import
operations starting from the empty store, the store size never exceeds
100; the retained set, however, is the 100 most recent by the ordering
rule only for the sorting operations — add evicts by array position. -/
theorem claim_C4_amended (ops : List HOp) : (applyOps ops).length ≤ 100 :=
  foldl_applyOp_length ops [] (by simp)


/-- Witness for C4 amended: a one-operation sequence. -/
theorem claim_C4_amended_witness :
    (applyOps [HOp.add resultA]).length ≤ 100 :=
  claim_C4_amended [HOp.add resultA]

/-! ## Merge idempotence (C5) -/

set_option maxRecDepth 40000 in
/-- C5 counterexample: merging cexRemote once into the full store cexLocal
skips the server record stale (its id is still local) and then evicts the
local stale record by capacity; merging the identical remote set again now
inserts the server stale record (timestamp 30) at the head, evicting
another record — the second application changes the store. -/
theorem claim_C5_counterexample :
    some "stale" ∉ storeIds (syncHistoryFromServer cexLocal cexRemote) ∧
    some "stale" ∈ storeIds
      (syncHistoryFromServer (syncHistoryFromServer cexLocal cexRemote) cexRemote) ∧
    syncHistoryFromServer (syncHistoryFromServer cexLocal cexRemote) cexRemote
      ≠ syncHistoryFromServer cexLocal cexRemote := by
  refine ⟨by decide, by decide, ?_⟩
  intro heq
  have h1 : some "stale" ∉ storeIds (syncHistoryFromServer cexLocal cexRemote) := by
    decide
  have h2 : some "stale" ∈ storeIds
      (syncHistoryFromServer (syncHistoryFromServer cexLocal cexRemote) cexRemote) := by
    decide
  rw [heq] at h2
  exact h1 h2

/-- C5 amended: merging the same remote set twice equals merging it once,
provided every remote id is present in the store after the first merge —
which the capacity truncation can defeat, but which always holds when the
combined set fits inside the 100-record bound. -/
theorem claim_C5_amended (s : List HistoryEntry) (entries : List ServerEntry)
    (h : ∀ e ∈ entries,
      some e.response.id ∈ storeIds (syncHistoryFromServer s entries)) :
    syncHistoryFromServer (syncHistoryFromServer s entries) entries
      = syncHistoryFromServer s entries := by
  have hlen := syncHistoryFromServer_length s entries
  have hsorted := syncHistoryFromServer_sorted s entries
  set t := syncHistoryFromServer s entries with ht
  have hfilter : entries.filter
      (fun e => !((storeIds t).contains (some e.response.id))) = [] := by
    rw [List.filter_eq_nil_iff]
    intro e he hcontra
    rw [Bool.not_eq_true'] at hcontra
    have hel : List.elem (some e.response.id) (storeIds t) = true :=
      List.elem_iff.mpr (h e he)
    rw [show (storeIds t).contains (some e.response.id)
        = List.elem (some e.response.id) (storeIds t) from rfl, hel] at hcontra
    exact Bool.noConfusion hcontra
  simp only [syncHistoryFromServer, hfilter, List.map_nil, List.append_nil]
  rw [sortByTimestampDesc_eq_self hsorted, if_neg (by omega)]

set_option maxRecDepth 40000 in
/-- Witness for C5 amended: the empty store with a single-record remote
set. -/
theorem claim_C5_amended_witness :
    (∀ e ∈ cexRemoteSmall,
      some e.response.id ∈ storeIds (syncHistoryFromServer [] cexRemoteSmall)) ∧
    syncHistoryFromServer (syncHistoryFromServer [] cexRemoteSmall) cexRemoteSmall
      = syncHistoryFromServer [] cexRemoteSmall :=
  ⟨by decide, claim_C5_amended [] cexRemoteSmall (by decide)⟩

/-! ## Bulk import decode behavior (C6) -/

/-- C6 counterexample: a record whose timestamp and request are both
missing is not skipped as malformed — only the id is checked, so the
record is accepted verbatim, and the report counts the whole payload, not
acceptances. -/
theorem claim_C6_counterexample :
    (importHistory [] (ImportPayload.jsonArray [malformedNoTs])).1 = [malformedNoTs] ∧
    (importHistory [] (ImportPayload.jsonArray [malformedNoTs])).2
      = "Imported 1 entries" :=
  ⟨rfl, rfl⟩

/-- C6 amended: records are treated independently, but the only per-record
check is a truthy id that is not already stored; records missing timestamp
or request are accepted as-is; the operation does not report accepted
versus skipped counts — the alert always states the total length of the
imported payload.  On the batch of one id-less record and nine valid ones
the store gains exactly the nine valid records while the report says ten. -/
theorem claim_C6_amended :
    (importHistory [] (ImportPayload.jsonArray importBatch10)).1
      = (List.range 9).map validImport ∧
    (importHistory [] (ImportPayload.jsonArray importBatch10)).1.length = 9 ∧
    (importHistory [] (ImportPayload.jsonArray importBatch10)).2
      = "Imported 10 entries" ∧
    (∀ existing imported,
      (importHistory existing (ImportPayload.jsonArray imported)).2
        = "Imported " ++ toString imported.length ++ " entries") :=
  ⟨rfl, rfl, rfl, fun _ _ => rfl⟩

end QExplore
